import Mathlib

/-!
Verification of the Client CRUD data-access layer (models/client_model.py)
and the modal window base (classes/base_window.py).

The database handle GestionnaireBase and the runtime environment (SQLite,
tkinter, the filesystem) are external collaborators of the two source
files; they are modelled here from the specification, while the entity,
DAO and window logic is translated directly from the Python source.
-/

set_option maxHeartbeats 1000000

/-- A stored row of the SQLite table Clients, one field per column, in
column order.  The REAL column credit_disponible is modelled as a rational
number: the layer under verification only stores and returns the value,
it never computes with it.  bon_client is the stored 0/1 INTEGER. -/
structure Row where
  idclient : Int
  nom_client : String
  numero_telephone : String
  adresse : String
  code_postal : String
  ville : String
  date_naissance : String
  credit_disponible : Rat
  bon_client : Int
  couleur_cheveux : String
deriving DecidableEq, Repr

/-- The dataclass Client of models/client_model.py: an in-memory client
record.  idclient is None (here: Option.none) for a record not yet
persisted; bon_client is a Python bool, stored as 0/1. -/
structure Client where
  idclient : Option Int := none
  nom_client : String := ""
  numero_telephone : String := ""
  adresse : String := ""
  code_postal : String := ""
  ville : String := ""
  date_naissance : String := ""
  credit_disponible : Rat := 0
  bon_client : Bool := false
  couleur_cheveux : String := "brun"
deriving DecidableEq, Repr

/-- Client.en_tuple_insertion: the nine field values, without idclient, in
the column order of the INSERT statement; the Python int() coercion of the
bool becomes 0/1. -/
def Client.en_tuple_insertion (c : Client) :
    String × String × String × String × String × String × Rat × Int × String :=
  (c.nom_client, c.numero_telephone, c.adresse, c.code_postal, c.ville,
   c.date_naissance, c.credit_disponible, if c.bon_client then 1 else 0,
   c.couleur_cheveux)

/-- Client.en_tuple_modification: the nine field values followed by
idclient (the WHERE parameter of the UPDATE statement). -/
def Client.en_tuple_modification (c : Client) :
    String × String × String × String × String × String × Rat × Int × String × Option Int :=
  (c.nom_client, c.numero_telephone, c.adresse, c.code_postal, c.ville,
   c.date_naissance, c.credit_disponible, if c.bon_client then 1 else 0,
   c.couleur_cheveux, c.idclient)

/-- Client.depuis_row: builds a Client from a result row; the Python
bool() coercion of the stored 0/1 makes bon_client true exactly when the
stored integer is nonzero. -/
def Client.depuis_row (r : Row) : Client :=
  { idclient := some r.idclient
    nom_client := r.nom_client
    numero_telephone := r.numero_telephone
    adresse := r.adresse
    code_postal := r.code_postal
    ville := r.ville
    date_naissance := r.date_naissance
    credit_disponible := r.credit_disponible
    bon_client := r.bon_client != 0
    couleur_cheveux := r.couleur_cheveux }

/-- Modelled from the spec: the connected database handle GestionnaireBase
(core/database.py, not part of the excerpt).  Its state is the contents of
the table Clients plus a schedule of per-call outcomes of the underlying
connection: each interroger/executer call consumes one entry; true means
the call reaches SQLite and succeeds, false means the call yields no
usable cursor/result.  An empty schedule means every call succeeds (the
healthy connection). -/
structure GestionnaireBase where
  table : List Row
  schedule : List Bool := []
deriving Repr

/-- Modelled from the spec: one database call consumes the head of the
outcome schedule (true when the schedule is exhausted). -/
def GestionnaireBase.next (db : GestionnaireBase) : Bool × GestionnaireBase :=
  match db.schedule with
  | [] => (true, db)
  | b :: rest => (b, { db with schedule := rest })

/-- The maximum of the IDCLIENT column over the table, none when the table
is empty: the SQL aggregate MAX(IDCLIENT). -/
def maxIdclient : List Row → Option Int
  | [] => none
  | r :: rs => some ((rs.map Row.idclient).foldl max r.idclient)

/-- The SELECT of ClientDAO.creer: COALESCE(MAX(IDCLIENT), 0) + 1. -/
def selectProchain (t : List Row) : Int :=
  (maxIdclient t).getD 0 + 1

/-- Modelled from the spec: db.interroger running the id-allocation query
of ClientDAO.creer.  On success it returns the one-row result, on failure
the empty row list. -/
def interrogerProchain (db : GestionnaireBase) : GestionnaireBase × List Int :=
  let (ok, db) := db.next
  if ok then (db, [selectProchain db.table]) else (db, [])

/-- The row inserted by ClientDAO.creer: the allocated id prepended to
Client.en_tuple_insertion, matching the column list of the INSERT. -/
def rowInsertion (prochain : Int) (c : Client) : Row :=
  { idclient := prochain
    nom_client := c.nom_client
    numero_telephone := c.numero_telephone
    adresse := c.adresse
    code_postal := c.code_postal
    ville := c.ville
    date_naissance := c.date_naissance
    credit_disponible := c.credit_disponible
    bon_client := if c.bon_client then 1 else 0
    couleur_cheveux := c.couleur_cheveux }

/-- Modelled from the spec: db.executer running the INSERT of
ClientDAO.creer; some () is the valid cursor, none the failure. -/
def executerInsertion (db : GestionnaireBase) (prochain : Int) (c : Client) :
    GestionnaireBase × Option Unit :=
  let (ok, db) := db.next
  if ok then ({ db with table := db.table ++ [rowInsertion prochain c] }, some ())
  else (db, none)

/-- ClientDAO.creer: allocates the next id with the COALESCE(MAX)+1 query,
returns None when that query yields no rows, otherwise inserts and returns
the allocated id when the insert yields a cursor, None otherwise. -/
def ClientDAO.creer (db : GestionnaireBase) (client : Client) :
    GestionnaireBase × Option Int :=
  let (db, rows) := interrogerProchain db
  match rows with
  | [] => (db, none)
  | prochain :: _ =>
    let (db, curseur) := executerInsertion db prochain client
    match curseur with
    | some _ => (db, some prochain)
    | none => (db, none)

/-- The SELECT of ClientDAO.lire: all rows with IDCLIENT = idclient. -/
def selectParId (t : List Row) (idclient : Int) : List Row :=
  t.filter (fun r => r.idclient == idclient)

/-- Modelled from the spec: db.interroger running the SELECT of
ClientDAO.lire. -/
def interrogerParId (db : GestionnaireBase) (idclient : Int) :
    GestionnaireBase × List Row :=
  let (ok, db) := db.next
  if ok then (db, selectParId db.table idclient) else (db, [])

/-- ClientDAO.lire: reads one client by id, None when no row comes back. -/
def ClientDAO.lire (db : GestionnaireBase) (idclient : Int) :
    GestionnaireBase × Option Client :=
  let (db, rows) := interrogerParId db idclient
  match rows with
  | r :: _ => (db, some (Client.depuis_row r))
  | [] => (db, none)

/-- The UPDATE of ClientDAO.modifier applied to one stored row: when the
WHERE parameter (the idclient slot of en_tuple_modification) equals the
row id, all nine value columns are replaced; SQL equality with a NULL
parameter matches no row. -/
def majRow (c : Client) (r : Row) : Row :=
  if c.idclient == some r.idclient then
    { r with
      nom_client := c.nom_client
      numero_telephone := c.numero_telephone
      adresse := c.adresse
      code_postal := c.code_postal
      ville := c.ville
      date_naissance := c.date_naissance
      credit_disponible := c.credit_disponible
      bon_client := if c.bon_client then 1 else 0
      couleur_cheveux := c.couleur_cheveux }
  else r

/-- Modelled from the spec: db.executer running the UPDATE of
ClientDAO.modifier. -/
def executerModification (db : GestionnaireBase) (c : Client) :
    GestionnaireBase × Option Unit :=
  let (ok, db) := db.next
  if ok then ({ db with table := db.table.map (majRow c) }, some ())
  else (db, none)

/-- ClientDAO.modifier: full-record UPDATE keyed by idclient; returns the
boolean curseur is not None. -/
def ClientDAO.modifier (db : GestionnaireBase) (client : Client) :
    GestionnaireBase × Bool :=
  let (db, curseur) := executerModification db client
  (db, curseur.isSome)

/-- Modelled from the spec: db.executer running the DELETE of
ClientDAO.supprimer (DELETE FROM Clients WHERE IDCLIENT = ?). -/
def executerSuppression (db : GestionnaireBase) (idclient : Int) :
    GestionnaireBase × Option Unit :=
  let (ok, db) := db.next
  if ok then ({ db with table := db.table.filter (fun r => r.idclient != idclient) }, some ())
  else (db, none)

/-- ClientDAO.supprimer: deletes one client by id, returns curseur is not
None. -/
def ClientDAO.supprimer (db : GestionnaireBase) (idclient : Int) :
    GestionnaireBase × Bool :=
  let (db, curseur) := executerSuppression db idclient
  (db, curseur.isSome)

/-- The placeholder list built by ClientDAO.supprimer_plusieurs: the
Python expression joining n copies of the question mark with a comma and a
space, character by character. -/
def placeholdersChars : Nat → List Char
  | 0 => []
  | 1 => ['?']
  | n + 2 => '?' :: ',' :: ' ' :: placeholdersChars (n + 1)

/-- The placeholder string of ClientDAO.supprimer_plusieurs. -/
def placeholders (n : Nat) : String :=
  ⟨placeholdersChars n⟩

/-- Modelled from the spec: db.executer running the DELETE ... WHERE
IDCLIENT IN (...) of ClientDAO.supprimer_plusieurs with the id list as
parameters. -/
def executerSuppressionIn (db : GestionnaireBase) (ids : List Int) :
    GestionnaireBase × Option Unit :=
  let (ok, db) := db.next
  if ok then
    ({ db with table := db.table.filter (fun r => !(ids.contains r.idclient)) }, some ())
  else (db, none)

/-- ClientDAO.supprimer_plusieurs: returns True at once on the empty id
list; otherwise builds one placeholder per id and runs the batch DELETE,
returning curseur is not None. -/
def ClientDAO.supprimer_plusieurs (db : GestionnaireBase) (ids : List Int) :
    GestionnaireBase × Bool :=
  if ids.isEmpty then (db, true)
  else
    let (db, curseur) := executerSuppressionIn db ids
    (db, curseur.isSome)

/-- ASCII lowercasing: the case folding SQLite LIKE applies to both
pattern and text (the engine is case-insensitive for ASCII letters
only). -/
def asciiLower (c : Char) : Char :=
  if 'A' ≤ c ∧ c ≤ 'Z' then Char.ofNat (c.toNat + 32) else c

/-- Modelled from the spec (the underlying engine): SQLite LIKE matching.
The percent sign matches any sequence of characters, the underscore
matches exactly one character, any other pattern character matches one
text character up to ASCII case folding. -/
def likeMatch : List Char → List Char → Bool
  | [], [] => true
  | [], _ :: _ => false
  | '%' :: ps, cs =>
    likeMatch ps cs ||
      (match cs with
       | [] => false
       | _ :: cs => likeMatch ('%' :: ps) cs)
  | '_' :: _, [] => false
  | '_' :: ps, _ :: cs => likeMatch ps cs
  | _ :: _, [] => false
  | p :: ps, c :: cs => (asciiLower p == asciiLower c) && likeMatch ps cs
termination_by ps cs => ps.length + cs.length

/-- The LIKE pattern built by ClientDAO.rechercher: the search string
wrapped in percent wildcards. -/
def motifRecherche (nom : String) : List Char :=
  '%' :: nom.data ++ ['%']

/-- Name comparison used by ORDER BY nom_client ASC. -/
def nomLe (a b : Row) : Prop :=
  a.nom_client ≤ b.nom_client

instance : DecidableRel nomLe := fun a b =>
  inferInstanceAs (Decidable (a.nom_client ≤ b.nom_client))

instance : IsTotal Row nomLe :=
  ⟨fun a b => le_total a.nom_client b.nom_client⟩

instance : IsTrans Row nomLe :=
  ⟨fun _ _ _ h h' => le_trans h h'⟩

/-- The SELECT of ClientDAO.rechercher: rows whose nom_client matches
LIKE the wrapped pattern, ordered ascending by nom_client. -/
def selectRecherche (t : List Row) (nom : String) : List Row :=
  List.insertionSort nomLe
    (t.filter (fun r => likeMatch (motifRecherche nom) r.nom_client.data))

/-- Modelled from the spec: db.interroger running the search SELECT of
ClientDAO.rechercher. -/
def interrogerRecherche (db : GestionnaireBase) (nom : String) :
    GestionnaireBase × List Row :=
  let (ok, db) := db.next
  if ok then (db, selectRecherche db.table nom) else (db, [])

/-- ClientDAO.rechercher: LIKE search on the name, each result row turned
into a Client with depuis_row. -/
def ClientDAO.rechercher (db : GestionnaireBase) (nom : String) :
    GestionnaireBase × List Client :=
  let (db, rows) := interrogerRecherche db nom
  (db, rows.map Client.depuis_row)

/-- Modelled from the spec: the geometry of the parent window as read by
the winfo calls in the centering method of FenetreBase (root position and
current size).  A parent whose geometry cannot be read (the except branch
of the source) is modelled as Option.none. -/
structure GeometrieParent where
  px : Int
  py : Int
  pw : Int
  ph : Int
deriving DecidableEq, Repr

/-- The centering method of FenetreBase (source name with a leading
underscore): the computed top-left placement of this window.  Python floor
division on integers is Int.fdiv.  When the parent geometry is readable
the window is centered on the parent, otherwise on the reported screen
dimensions. -/
def FenetreBase.centrer (parent : Option GeometrieParent)
    (ecran_l ecran_h : Int) (largeur hauteur : Int) : Int × Int :=
  match parent with
  | some g => (g.px + Int.fdiv (g.pw - largeur) 2, g.py + Int.fdiv (g.ph - hauteur) 2)
  | none => (Int.fdiv (ecran_l - largeur) 2, Int.fdiv (ecran_h - hauteur) 2)

/-- Modelled from the spec: a tkinter PhotoImage handle.  The ident field
models Python object identity: each constructor call in charger_image
yields a handle with a fresh ident, so two handles are the identical
object exactly when they are equal here. -/
structure PhotoImage where
  fichier : String
  ident : Nat
deriving DecidableEq, Repr

/-- Modelled from the spec: the environment of charger_image, namely
IMAGES_DIR from core.config (not part of the excerpt), the set of paths
for which os.path.isfile holds, and which paths tkinter can decode
(tk.PhotoImage succeeding rather than raising TclError). -/
structure SystemeImages where
  images_dir : String
  fichiers : List String
  lisible : String → Bool

/-- The path os.path.join(IMAGES_DIR, nom_fichier) as resolved by
charger_image. -/
def cheminImage (sys : SystemeImages) (nom_fichier : String) : String :=
  sys.images_dir ++ "/" ++ nom_fichier

/-- The per-window state charger_image works on: the image cache mapping
filenames to loaded handles, plus the fresh-identity source. -/
structure FenetreBase where
  cache_images : List (String × PhotoImage) := []
  prochain_ident : Nat := 0
deriving DecidableEq, Repr

/-- FenetreBase.charger_image: returns the cached handle when the
filename was loaded before; otherwise resolves the path under the image
directory, returns None when the file is missing, loads and caches the
image when tkinter can decode it, and returns None (catching TclError)
when it cannot.  The taille parameter of the source is ignored there and
therefore not modelled. -/
def FenetreBase.charger_image (fen : FenetreBase) (sys : SystemeImages)
    (nom_fichier : String) : FenetreBase × Option PhotoImage :=
  match fen.cache_images.lookup nom_fichier with
  | some photo => (fen, some photo)
  | none =>
    let chemin := cheminImage sys nom_fichier
    if sys.fichiers.contains chemin then
      if sys.lisible chemin then
        let photo : PhotoImage := ⟨chemin, fen.prochain_ident⟩
        ({ cache_images := (nom_fichier, photo) :: fen.cache_images,
           prochain_ident := fen.prochain_ident + 1 }, some photo)
      else (fen, none)
    else (fen, none)

/-! ### Helper lemmas -/

theorem le_foldl_max (l : List Int) (a : Int) : a ≤ l.foldl max a := by
  induction l generalizing a with
  | nil => exact le_refl a
  | cons x xs ih => exact le_trans (le_max_left a x) (ih (max a x))

theorem mem_le_foldl_max {l : List Int} {x : Int} (h : x ∈ l) (a : Int) :
    x ≤ l.foldl max a := by
  induction l generalizing a with
  | nil => cases h
  | cons y ys ih =>
    rw [List.foldl_cons]
    rcases List.mem_cons.mp h with h | h
    · subst h
      exact le_trans (le_max_right a x) (le_foldl_max ys (max a x))
    · exact ih h (max a y)

/-- Every stored id is strictly below the id the allocation query
computes: MAX(IDCLIENT) + 1 is fresh. -/
theorem idclient_lt_selectProchain {t : List Row} {r : Row} (h : r ∈ t) :
    r.idclient < selectProchain t := by
  cases t with
  | nil => cases h
  | cons r0 rs =>
    have hle : r.idclient ≤ (rs.map Row.idclient).foldl max r0.idclient := by
      rcases List.mem_cons.mp h with h | h
      · subst h
        exact le_foldl_max _ _
      · exact mem_le_foldl_max (List.mem_map_of_mem Row.idclient h) _
    have he : selectProchain (r0 :: rs) =
        (rs.map Row.idclient).foldl max r0.idclient + 1 := rfl
    omega

theorem map_eq_self_of_mem {α : Type} {f : α → α} :
    ∀ {l : List α}, (∀ a ∈ l, f a = a) → l.map f = l := by
  intro l h
  induction l with
  | nil => rfl
  | cons x xs ih =>
    simp only [List.map_cons, h x (List.mem_cons_self x xs),
      ih fun a ha => h a (List.mem_cons_of_mem x ha)]

theorem mem_of_lookup_eq_some {α β : Type} [BEq α] [LawfulBEq α]
    {l : List (α × β)} {k : α} {v : β} (h : l.lookup k = some v) : (k, v) ∈ l := by
  induction l with
  | nil => cases h
  | cons e es ih =>
    obtain ⟨a, b⟩ := e
    rw [List.lookup_cons] at h
    by_cases hk : k == a
    · rw [hk] at h
      cases h
      have : k = a := eq_of_beq hk
      subst this
      exact List.mem_cons_self _ _
    · rw [Bool.not_eq_true] at hk
      rw [hk] at h
      exact List.mem_cons_of_mem _ (ih h)

/-- A lone percent wildcard matches every text. -/
theorem likeMatch_pourcent : ∀ cs : List Char, likeMatch ['%'] cs = true
  | [] => by simp [likeMatch]
  | c :: cs => by
    have ih := likeMatch_pourcent cs
    unfold likeMatch
    simp [ih]

/-- The pattern built from the empty search string matches every text. -/
theorem likeMatch_motif_vide (cs : List Char) :
    likeMatch (motifRecherche "") cs = true := by
  show likeMatch ['%', '%'] cs = true
  unfold likeMatch
  simp [likeMatch_pourcent cs]

/-- One placeholder per requested id: the join of n question marks holds
exactly n of them. -/
theorem count_placeholdersChars : ∀ n : Nat, (placeholdersChars n).count '?' = n
  | 0 => rfl
  | 1 => by simp [placeholdersChars, List.count_cons]
  | n + 2 => by
    have ih := count_placeholdersChars (n + 1)
    have h1 : (('?' : Char) == '?') = true := by decide
    have h2 : ((',' : Char) == '?') = false := by decide
    have h3 : ((' ' : Char) == '?') = false := by decide
    unfold placeholdersChars
    simp [List.count_cons, h1, h2, h3, ih]

/-! ### Evaluation of the DAO operations on a healthy connection -/

theorem creer_eval (t : List Row) (c : Client) :
    ClientDAO.creer ⟨t, []⟩ c =
      (⟨t ++ [rowInsertion (selectProchain t) c], []⟩, some (selectProchain t)) := rfl

theorem lire_eval (t : List Row) (i : Int) :
    ClientDAO.lire ⟨t, []⟩ i =
      (⟨t, []⟩, (selectParId t i).head?.map Client.depuis_row) := by
  unfold ClientDAO.lire interrogerParId GestionnaireBase.next
  dsimp only
  rcases hsel : selectParId t i with _ | ⟨r, rs⟩ <;> simp [hsel]

theorem modifier_eval (t : List Row) (c : Client) :
    ClientDAO.modifier ⟨t, []⟩ c = (⟨t.map (majRow c), []⟩, true) := rfl

theorem supprimer_eval (t : List Row) (i : Int) :
    ClientDAO.supprimer ⟨t, []⟩ i =
      (⟨t.filter (fun r => r.idclient != i), []⟩, true) := rfl

theorem rechercher_eval (t : List Row) (nom : String) :
    ClientDAO.rechercher ⟨t, []⟩ nom =
      (⟨t, []⟩, (selectRecherche t nom).map Client.depuis_row) := rfl

/-! ### Concrete data for witnesses and counterexamples -/

def clientTest : Client :=
  { idclient := none
    nom_client := "Dupont"
    numero_telephone := "0102030405"
    adresse := "1 rue de la Paix"
    code_postal := "75001"
    ville := "Paris"
    date_naissance := "1980-01-02"
    credit_disponible := 5 / 2
    bon_client := true
    couleur_cheveux := "blond" }

def rowTest : Row :=
  { idclient := 4
    nom_client := "Martin"
    numero_telephone := "0605040302"
    adresse := "2 avenue des Champs"
    code_postal := "31000"
    ville := "Toulouse"
    date_naissance := "1990-05-06"
    credit_disponible := 10
    bon_client := 1
    couleur_cheveux := "roux" }

/-! ### Claims -/

/-- C1: ClientDAO.creer assigns identifier 1 when the table is empty and
max(existing identifiers) + 1 when it is non-empty, and returns that
assigned identifier on success (modelled as a connection whose calls all
succeed). -/
theorem creer_assigne_prochain_id (db : GestionnaireBase) (c : Client)
    (hs : db.schedule = []) :
    (db.table = [] → (ClientDAO.creer db c).2 = some 1) ∧
    ∀ m : Int, maxIdclient db.table = some m →
      (ClientDAO.creer db c).2 = some (m + 1) := by
  obtain ⟨t, s⟩ := db
  dsimp only at hs
  subst hs
  constructor
  · intro ht
    dsimp only at ht
    subst ht
    rfl
  · intro m hm
    rw [creer_eval]
    dsimp only
    unfold selectProchain
    rw [hm]
    rfl

theorem creer_assigne_prochain_id_witness :
    (ClientDAO.creer { table := [] } clientTest).2 = some 1 ∧
    (ClientDAO.creer { table := [rowTest] } clientTest).2 = some (4 + 1) :=
  ⟨(creer_assigne_prochain_id { table := [] } clientTest rfl).1 rfl,
   (creer_assigne_prochain_id { table := [rowTest] } clientTest rfl).2 4 rfl⟩

/-- C2: for a valid record without identifier, creer followed by lire of
the assigned identifier returns a record equal to the input in every
field except the identifier, through the round-trip of the insert tuple
and the row deserialization with its 0/1 coercion of bon_client. -/
theorem creer_puis_lire_aller_retour (db : GestionnaireBase) (c : Client)
    (hs : db.schedule = []) (_hid : c.idclient = none) :
    (ClientDAO.creer db c).2 = some (selectProchain db.table) ∧
    (ClientDAO.lire (ClientDAO.creer db c).1 (selectProchain db.table)).2 =
      some { c with idclient := some (selectProchain db.table) } := by
  obtain ⟨t, s⟩ := db
  dsimp only at hs
  subst hs
  rw [creer_eval]
  dsimp only
  refine ⟨rfl, ?_⟩
  rw [lire_eval]
  dsimp only
  have hsel : selectParId (t ++ [rowInsertion (selectProchain t) c]) (selectProchain t) =
      [rowInsertion (selectProchain t) c] := by
    unfold selectParId
    rw [List.filter_append]
    have h1 : t.filter (fun r => r.idclient == selectProchain t) = [] := by
      rw [List.filter_eq_nil_iff]
      intro r hr
      have hlt := idclient_lt_selectProchain hr
      simp only [beq_iff_eq]
      omega
    have h2 : [rowInsertion (selectProchain t) c].filter
        (fun r => r.idclient == selectProchain t) = [rowInsertion (selectProchain t) c] := by
      simp [rowInsertion]
    rw [h1, h2, List.nil_append]
  rw [hsel]
  have hbon : ((if c.bon_client then (1 : Int) else 0) != 0) = c.bon_client := by
    cases c.bon_client <;> rfl
  simp only [List.head?, Option.map, Client.depuis_row, rowInsertion, hbon]

theorem creer_puis_lire_aller_retour_witness :
    (ClientDAO.creer { table := [rowTest] } clientTest).2 =
      some (selectProchain [rowTest]) ∧
    (ClientDAO.lire (ClientDAO.creer { table := [rowTest] } clientTest).1
        (selectProchain [rowTest])).2 =
      some { clientTest with idclient := some (selectProchain [rowTest]) } :=
  creer_puis_lire_aller_retour { table := [rowTest] } clientTest rfl rfl

/-- C6: supprimer followed by lire on the same identifier returns the
not-found sentinel None. -/
theorem supprimer_puis_lire_none (db : GestionnaireBase) (idclient : Int)
    (hs : db.schedule = []) :
    (ClientDAO.lire (ClientDAO.supprimer db idclient).1 idclient).2 = none := by
  obtain ⟨t, s⟩ := db
  dsimp only at hs
  subst hs
  rw [supprimer_eval]
  dsimp only
  rw [lire_eval]
  dsimp only
  have h : selectParId (t.filter fun r => r.idclient != idclient) idclient = [] := by
    unfold selectParId
    rw [List.filter_filter, List.filter_eq_nil_iff]
    intro r hr
    simp
  rw [h]
  rfl

theorem supprimer_puis_lire_none_witness :
    (ClientDAO.lire (ClientDAO.supprimer { table := [rowTest] } 4).1 4).2 = none :=
  supprimer_puis_lire_none { table := [rowTest] } 4 rfl

/-- C9: when the id-allocation query of creer yields no rows, creer
returns None, the table is unchanged, and the insert is never attempted
(exactly one database call is consumed from the outcome schedule). -/
theorem creer_allocation_echoue (db : GestionnaireBase) (c : Client)
    (reste : List Bool) (hs : db.schedule = false :: reste) :
    (ClientDAO.creer db c).2 = none ∧
    (ClientDAO.creer db c).1.table = db.table ∧
    (ClientDAO.creer db c).1.schedule = reste := by
  obtain ⟨t, s⟩ := db
  dsimp only at hs
  subst hs
  exact ⟨rfl, rfl, rfl⟩

theorem creer_allocation_echoue_witness :
    (ClientDAO.creer { table := [rowTest], schedule := [false, true] } clientTest).2 = none ∧
    (ClientDAO.creer { table := [rowTest], schedule := [false, true] } clientTest).1.table =
      [rowTest] ∧
    (ClientDAO.creer { table := [rowTest], schedule := [false, true] } clientTest).1.schedule =
      [true] :=
  creer_allocation_echoue { table := [rowTest], schedule := [false, true] } clientTest [true] rfl

/-- C4: modifier on an identifier matching no row still returns true and
creates or alters no row; in general, the returned boolean only reflects
whether the underlying execution produced a valid cursor (here: the next
scheduled connection outcome), regardless of how many rows matched. -/
theorem modifier_id_inexistant (db : GestionnaireBase) (c : Client)
    (hs : db.schedule = [])
    (habs : ∀ r ∈ db.table, c.idclient ≠ some r.idclient) :
    ((ClientDAO.modifier db c).2 = true ∧
     (ClientDAO.modifier db c).1.table = db.table) ∧
    ∀ db2 : GestionnaireBase, ∀ c2 : Client,
      (ClientDAO.modifier db2 c2).2 = db2.schedule.headD true := by
  constructor
  · obtain ⟨t, s⟩ := db
    dsimp only at hs habs
    subst hs
    rw [modifier_eval]
    refine ⟨rfl, ?_⟩
    dsimp only
    apply map_eq_self_of_mem
    intro r hr
    unfold majRow
    rw [if_neg]
    simp only [beq_iff_eq]
    exact habs r hr
  · intro db2 c2
    obtain ⟨t2, s2⟩ := db2
    cases s2 with
    | nil => rfl
    | cons b rest => cases b <;> rfl

theorem modifier_id_inexistant_witness :
    ((ClientDAO.modifier { table := [rowTest] } clientTest).2 = true ∧
     (ClientDAO.modifier { table := [rowTest] } clientTest).1.table = [rowTest]) ∧
    ∀ db2 : GestionnaireBase, ∀ c2 : Client,
      (ClientDAO.modifier db2 c2).2 = db2.schedule.headD true :=
  modifier_id_inexistant { table := [rowTest] } clientTest rfl
    (by intro r hr; simp [clientTest])

/-- C5: supprimer_plusieurs on the empty list is a no-op returning true;
on a non-empty list it returns true, removes exactly the rows whose
identifier is in the list while keeping every other row, and builds one
placeholder per input identifier. -/
theorem supprimer_plusieurs_spec (db : GestionnaireBase) (ids : List Int)
    (hs : db.schedule = []) :
    (ids = [] → ClientDAO.supprimer_plusieurs db ids = (db, true)) ∧
    (ids ≠ [] →
      (ClientDAO.supprimer_plusieurs db ids).2 = true ∧
      (ClientDAO.supprimer_plusieurs db ids).1.table =
        db.table.filter (fun r => !(ids.contains r.idclient)) ∧
      (placeholders ids.length).data.count '?' = ids.length) := by
  constructor
  · intro h
    subst h
    rfl
  · intro h
    obtain ⟨t, s⟩ := db
    dsimp only at hs
    subst hs
    have he : ids.isEmpty = false := by
      cases ids with
      | nil => exact absurd rfl h
      | cons a as => rfl
    unfold ClientDAO.supprimer_plusieurs executerSuppressionIn GestionnaireBase.next
    rw [he]
    exact ⟨rfl, rfl, count_placeholdersChars ids.length⟩

theorem supprimer_plusieurs_spec_witness :
    (ClientDAO.supprimer_plusieurs { table := [rowTest] } ([] : List Int) =
      ({ table := [rowTest] }, true)) ∧
    ((ClientDAO.supprimer_plusieurs { table := [rowTest] } [4, 7]).2 = true ∧
     (ClientDAO.supprimer_plusieurs { table := [rowTest] } [4, 7]).1.table =
       ([rowTest].filter fun r => !([4, 7].contains r.idclient)) ∧
     (placeholders ([4, 7] : List Int).length).data.count '?' = ([4, 7] : List Int).length) :=
  ⟨(supprimer_plusieurs_spec { table := [rowTest] } [] rfl).1 rfl,
   (supprimer_plusieurs_spec { table := [rowTest] } [4, 7] rfl).2 (by decide)⟩

def rowA : Row :=
  { idclient := 1
    nom_client := "a"
    numero_telephone := ""
    adresse := ""
    code_postal := ""
    ville := ""
    date_naissance := ""
    credit_disponible := 0
    bon_client := 0
    couleur_cheveux := "brun" }

/-- C3 as stated fails: searching for the underscore string returns a
record whose name does not contain that string as a substring, because
the search string is spliced into a LIKE pattern where the underscore is
a wildcard matching any single character. -/
theorem rechercher_contre_exemple_sous_chaine :
    (ClientDAO.rechercher { table := [rowA] } "_").2.map Client.nom_client = ["a"] ∧
    ¬ ("_".data <:+: "a".data) := by
  constructor
  · rw [rechercher_eval]
    simp [selectRecherche, motifRecherche, likeMatch, rowA, Client.depuis_row]
  · decide

/-- C3 amended: rechercher returns exactly (as a multiset) the records
whose name matches the SQLite LIKE pattern built by wrapping the search
string in percent wildcards (ASCII-case-insensitive, with the percent and
underscore wildcards), ordered ascending by name; with the empty string
it returns all records in that order. -/
theorem rechercher_motif_like (db : GestionnaireBase) (nom : String)
    (hs : db.schedule = []) :
    List.Perm (ClientDAO.rechercher db nom).2
      ((db.table.filter fun r => likeMatch (motifRecherche nom) r.nom_client.data).map
        Client.depuis_row) ∧
    List.Sorted (fun a b : Client => a.nom_client ≤ b.nom_client)
      (ClientDAO.rechercher db nom).2 ∧
    (nom = "" →
      List.Perm (ClientDAO.rechercher db nom).2 (db.table.map Client.depuis_row)) := by
  obtain ⟨t, s⟩ := db
  dsimp only at hs
  subst hs
  rw [rechercher_eval]
  dsimp only
  refine ⟨?_, ?_, ?_⟩
  · exact (List.perm_insertionSort nomLe _).map Client.depuis_row
  · have hsor := List.sorted_insertionSort nomLe
      (t.filter fun r => likeMatch (motifRecherche nom) r.nom_client.data)
    unfold List.Sorted at hsor ⊢
    rw [List.pairwise_map]
    exact hsor.imp (fun h => h)
  · intro h
    subst h
    unfold selectRecherche
    rw [List.filter_eq_self.mpr fun r _ => likeMatch_motif_vide r.nom_client.data]
    exact (List.perm_insertionSort nomLe t).map Client.depuis_row

theorem rechercher_motif_like_witness :
    List.Perm (ClientDAO.rechercher { table := [rowTest] } "").2
      (([rowTest].filter fun r => likeMatch (motifRecherche "") r.nom_client.data).map
        Client.depuis_row) ∧
    List.Sorted (fun a b : Client => a.nom_client ≤ b.nom_client)
      (ClientDAO.rechercher { table := [rowTest] } "").2 ∧
    List.Perm (ClientDAO.rechercher { table := [rowTest] } "").2
      ([rowTest].map Client.depuis_row) :=
  ⟨(rechercher_motif_like { table := [rowTest] } "" rfl).1,
   (rechercher_motif_like { table := [rowTest] } "" rfl).2.1,
   (rechercher_motif_like { table := [rowTest] } "" rfl).2.2 rfl⟩

/-- C7: the computed placement centers this window on the parent when the
parent geometry is readable, with Python floor division, and centers it
on the reported screen dimensions otherwise. -/
theorem centrer_place_fenetre (g : GeometrieParent)
    (ecran_l ecran_h largeur hauteur : Int) :
    FenetreBase.centrer (some g) ecran_l ecran_h largeur hauteur =
      (g.px + Int.fdiv (g.pw - largeur) 2, g.py + Int.fdiv (g.ph - hauteur) 2) ∧
    FenetreBase.centrer none ecran_l ecran_h largeur hauteur =
      (Int.fdiv (ecran_l - largeur) 2, Int.fdiv (ecran_h - hauteur) 2) :=
  ⟨rfl, rfl⟩

/-- The cache coherence invariant of charger_image: every cached filename
resolved, at load time, to an existing file the image loader could
decode. -/
def cacheCoherent (sys : SystemeImages) (fen : FenetreBase) : Prop :=
  ∀ e ∈ fen.cache_images,
    sys.fichiers.contains (cheminImage sys e.1) = true ∧
    sys.lisible (cheminImage sys e.1) = true

/-- C8: on a coherent cache, a filename whose first request returned a
handle yields the identical cached handle (and an unchanged state) when
requested again, and a filename whose file does not exist, or whose file
the loader cannot decode, yields the absence sentinel None;
charger_image is a total function, so no call raises. -/
theorem charger_image_cache_et_absent (fen : FenetreBase) (sys : SystemeImages)
    (nom_fichier : String) (hcoh : cacheCoherent sys fen) :
    (∀ fen2 photo,
      FenetreBase.charger_image fen sys nom_fichier = (fen2, some photo) →
      FenetreBase.charger_image fen2 sys nom_fichier = (fen2, some photo)) ∧
    (sys.fichiers.contains (cheminImage sys nom_fichier) = false →
      (FenetreBase.charger_image fen sys nom_fichier).2 = none) ∧
    (sys.lisible (cheminImage sys nom_fichier) = false →
      (FenetreBase.charger_image fen sys nom_fichier).2 = none) := by
  refine ⟨?_, ?_, ?_⟩
  · intro fen2 photo h
    rcases hl : fen.cache_images.lookup nom_fichier with _ | p
    · by_cases hf : sys.fichiers.contains (cheminImage sys nom_fichier) = true
      · by_cases hr : sys.lisible (cheminImage sys nom_fichier) = true
        · rw [FenetreBase.charger_image, hl] at h
          dsimp only at h
          rw [if_pos hf, if_pos hr] at h
          rw [Prod.mk.injEq] at h
          obtain ⟨h1, h2⟩ := h
          rw [Option.some.injEq] at h2
          subst h1
          subst h2
          rw [FenetreBase.charger_image]
          dsimp only
          rw [List.lookup_cons]
          simp
        · rw [FenetreBase.charger_image, hl] at h
          dsimp only at h
          rw [if_pos hf, if_neg hr] at h
          simp at h
      · rw [FenetreBase.charger_image, hl] at h
        dsimp only at h
        rw [if_neg hf] at h
        simp at h
    · rw [FenetreBase.charger_image, hl] at h
      dsimp only at h
      rw [Prod.mk.injEq] at h
      obtain ⟨h1, h2⟩ := h
      subst h1
      rw [FenetreBase.charger_image, hl]
      rw [h2]
  · intro habs
    rcases hl : fen.cache_images.lookup nom_fichier with _ | p
    · rw [FenetreBase.charger_image, hl]
      dsimp only
      rw [if_neg (by rw [habs]; exact Bool.false_ne_true)]
    · exfalso
      have hmem := mem_of_lookup_eq_some hl
      have hc := (hcoh _ hmem).1
      rw [habs] at hc
      exact Bool.false_ne_true hc
  · intro hill
    rcases hl : fen.cache_images.lookup nom_fichier with _ | p
    · rw [FenetreBase.charger_image, hl]
      dsimp only
      by_cases hf : sys.fichiers.contains (cheminImage sys nom_fichier) = true
      · rw [if_pos hf, if_neg (by rw [hill]; exact Bool.false_ne_true)]
      · rw [if_neg hf]
    · exfalso
      have hmem := mem_of_lookup_eq_some hl
      have hc := (hcoh _ hmem).2
      rw [hill] at hc
      exact Bool.false_ne_true hc

def sysIllisible : SystemeImages :=
  { images_dir := "images"
    fichiers := ["images/photo.jpg"]
    lisible := fun _ => false }

def sysTest : SystemeImages :=
  { images_dir := "images"
    fichiers := ["images/Base_create.png"]
    lisible := fun _ => true }

def sysVide : SystemeImages :=
  { images_dir := "images"
    fichiers := []
    lisible := fun _ => false }

def fenApres : FenetreBase :=
  { cache_images := [("Base_create.png", ⟨"images/Base_create.png", 0⟩)]
    prochain_ident := 1 }

theorem charger_image_cache_et_absent_witness :
    (FenetreBase.charger_image fenApres sysTest "Base_create.png" =
      (fenApres, some ⟨"images/Base_create.png", 0⟩)) ∧
    (FenetreBase.charger_image {} sysVide "absent.png").2 = none ∧
    (FenetreBase.charger_image {} sysIllisible "photo.jpg").2 = none :=
  ⟨(charger_image_cache_et_absent {} sysTest "Base_create.png"
      (fun e he => absurd he (List.not_mem_nil e))).1 fenApres
      ⟨"images/Base_create.png", 0⟩ rfl,
   (charger_image_cache_et_absent {} sysVide "absent.png"
      (fun e he => absurd he (List.not_mem_nil e))).2.1 rfl,
   (charger_image_cache_et_absent {} sysIllisible "photo.jpg"
      (fun e he => absurd he (List.not_mem_nil e))).2.2 rfl⟩

/-- C10: a call of charger_image that returns None leaves the window
state, in particular the image cache, unchanged; moreover every call
preserves cache coherence, so the cache only ever maps filenames to
successfully loaded images. -/
theorem charger_image_echec_sans_effet (fen : FenetreBase) (sys : SystemeImages)
    (nom_fichier : String) :
    ((FenetreBase.charger_image fen sys nom_fichier).2 = none →
      (FenetreBase.charger_image fen sys nom_fichier).1 = fen) ∧
    (cacheCoherent sys fen →
      cacheCoherent sys (FenetreBase.charger_image fen sys nom_fichier).1) := by
  rcases hl : fen.cache_images.lookup nom_fichier with _ | p
  · by_cases hf : sys.fichiers.contains (cheminImage sys nom_fichier) = true
    · by_cases hr : sys.lisible (cheminImage sys nom_fichier) = true
      · constructor
        · intro h
          rw [FenetreBase.charger_image, hl] at h
          dsimp only at h
          rw [if_pos hf, if_pos hr] at h
          simp at h
        · intro hcoh
          rw [FenetreBase.charger_image, hl]
          dsimp only
          rw [if_pos hf, if_pos hr]
          intro e he
          rcases List.mem_cons.mp he with he | he
          · subst he
            exact ⟨hf, hr⟩
          · exact hcoh e he
      · constructor
        · intro _
          rw [FenetreBase.charger_image, hl]
          dsimp only
          rw [if_pos hf, if_neg hr]
        · intro hcoh
          rw [FenetreBase.charger_image, hl]
          dsimp only
          rw [if_pos hf, if_neg hr]
          exact hcoh
    · constructor
      · intro _
        rw [FenetreBase.charger_image, hl]
        dsimp only
        rw [if_neg hf]
      · intro hcoh
        rw [FenetreBase.charger_image, hl]
        dsimp only
        rw [if_neg hf]
        exact hcoh
  · constructor
    · intro h
      rw [FenetreBase.charger_image, hl] at h
      simp at h
    · intro hcoh
      rw [FenetreBase.charger_image, hl]
      exact hcoh

theorem charger_image_echec_sans_effet_witness :
    (FenetreBase.charger_image {} sysVide "absent.png").1 = ({} : FenetreBase) ∧
    cacheCoherent sysVide (FenetreBase.charger_image {} sysVide "absent.png").1 :=
  ⟨(charger_image_echec_sans_effet {} sysVide "absent.png").1 rfl,
   (charger_image_echec_sans_effet {} sysVide "absent.png").2
     (fun e he => absurd he (List.not_mem_nil e))⟩
